import Mathlib

/-!
Verification of the cs-nades core: pseudonymous account / bookmark subsystem,
submission intake, and the moderation pipeline, shallowly embedded from the
TypeScript route handlers and `src/lib` modules.
-/

set_option autoImplicit false

namespace CsNades

/-! ## JavaScript string primitives

`String.prototype.trim` and `String.prototype.toLowerCase` as used by
`hashNickname` (src/lib/auth.ts) and the login handler.  Whitespace is the
common ASCII set; lowercasing is ASCII (`Char.toLower`), which covers every
character the handlers compare against. -/

def isJsSpace (c : Char) : Bool :=
  c == ' ' || c == '\t' || c == '\n' || c == '\r' || c == '\x0b' || c == '\x0c'

/-- JS `s.trim()`: drop whitespace from both ends. -/
def jsTrim (s : String) : String :=
  String.mk (((s.toList.dropWhile isJsSpace).reverse.dropWhile isJsSpace).reverse)

/-- JS `s.toLowerCase()` (ASCII range). -/
def jsToLower (s : String) : String :=
  String.mk (s.toList.map Char.toLower)

/-- The normalization applied by `hashNickname`: trim, then lowercase. -/
def jsNormalize (s : String) : String := jsToLower (jsTrim s)

/-! ## UTF-8 encoding

`crypto.createHash('sha256').update(string)` hashes the UTF-8 bytes of the
string. -/

def utf8Char (c : Char) : List Nat :=
  let n := c.toNat
  if n < 0x80 then [n]
  else if n < 0x800 then
    [0xC0 ||| (n >>> 6), 0x80 ||| (n &&& 0x3F)]
  else if n < 0x10000 then
    [0xE0 ||| (n >>> 12), 0x80 ||| ((n >>> 6) &&& 0x3F), 0x80 ||| (n &&& 0x3F)]
  else
    [0xF0 ||| (n >>> 18), 0x80 ||| ((n >>> 12) &&& 0x3F),
     0x80 ||| ((n >>> 6) &&& 0x3F), 0x80 ||| (n &&& 0x3F)]

def utf8Encode (s : String) : List Nat := s.toList.flatMap utf8Char

/-! ## SHA-256 (FIPS 180-4)

Embedding of `createHash('sha256')` from node:crypto, operating on byte lists
with 32-bit words as `Nat` reduced mod `2^32`. -/

def w32 (n : Nat) : Nat := n % 4294967296

def rotr32 (k x : Nat) : Nat := w32 ((x >>> k) ||| (x <<< (32 - k)))

def smallSigma0 (x : Nat) : Nat := rotr32 7 x ^^^ rotr32 18 x ^^^ (x >>> 3)

def smallSigma1 (x : Nat) : Nat := rotr32 17 x ^^^ rotr32 19 x ^^^ (x >>> 10)

def bigSigma0 (x : Nat) : Nat := rotr32 2 x ^^^ rotr32 13 x ^^^ rotr32 22 x

def bigSigma1 (x : Nat) : Nat := rotr32 6 x ^^^ rotr32 11 x ^^^ rotr32 25 x

def chF (x y z : Nat) : Nat := (x &&& y) ^^^ ((x ^^^ 0xffffffff) &&& z)

def majF (x y z : Nat) : Nat := (x &&& y) ^^^ (x &&& z) ^^^ (y &&& z)

def K256 : List Nat :=
  [1116352408, 1899447441, 3049323471, 3921009573,
   961987163, 1508970993, 2453635748, 2870763221,
   3624381080, 310598401, 607225278, 1426881987,
   1925078388, 2162078206, 2614888103, 3248222580,
   3835390401, 4022224774, 264347078, 604807628,
   770255983, 1249150122, 1555081692, 1996064986,
   2554220882, 2821834349, 2952996808, 3210313671,
   3336571891, 3584528711, 113926993, 338241895,
   666307205, 773529912, 1294757372, 1396182291,
   1695183700, 1986661051, 2177026350, 2456956037,
   2730485921, 2820302411, 3259730800, 3345764771,
   3516065817, 3600352804, 4094571909, 275423344,
   430227734, 506948616, 659060556, 883997877,
   958139571, 1322822218, 1537002063, 1747873779,
   1955562222, 2024104815, 2227730452, 2361852424,
   2428436474, 2756734187, 3204031479, 3329325298]

structure H8 where
  a : Nat
  b : Nat
  c : Nat
  d : Nat
  e : Nat
  f : Nat
  g : Nat
  hh : Nat
deriving DecidableEq

def initH : H8 :=
  ⟨1779033703, 3144134277, 1013904242, 2773480762,
   1359893119, 2600822924, 528734635, 1541459225⟩

/-- Pack big-endian 4-byte groups into 32-bit words. -/
def bytesToWords : List Nat → List Nat
  | b0 :: b1 :: b2 :: b3 :: rest =>
      (((b0 * 256 + b1) * 256 + b2) * 256 + b3) :: bytesToWords rest
  | _ => []

/-- Extend the 16-word schedule by `k` further words. -/
def extendW : Nat → List Nat → List Nat
  | 0, w => w
  | Nat.succ k, w =>
      let n := w.length
      let t := w32 (smallSigma1 (w.getD (n - 2) 0) + w.getD (n - 7) 0 +
                    smallSigma0 (w.getD (n - 15) 0) + w.getD (n - 16) 0)
      extendW k (w ++ [t])

def roundStep (st : H8) (wk : Nat × Nat) : H8 :=
  let t1 := w32 (st.hh + bigSigma1 st.e + chF st.e st.f st.g + wk.2 + wk.1)
  let t2 := w32 (bigSigma0 st.a + majF st.a st.b st.c)
  ⟨w32 (t1 + t2), st.a, st.b, st.c, w32 (st.d + t1), st.e, st.f, st.g⟩

def processBlock (st : H8) (block : List Nat) : H8 :=
  let ws := extendW 48 (bytesToWords block)
  let r := (ws.zip K256).foldl roundStep st
  ⟨w32 (st.a + r.a), w32 (st.b + r.b), w32 (st.c + r.c), w32 (st.d + r.d),
   w32 (st.e + r.e), w32 (st.f + r.f), w32 (st.g + r.g), w32 (st.hh + r.hh)⟩

/-- Big-endian 8-byte representation of the bit length. -/
def beBytes8 (n : Nat) : List Nat :=
  [(n >>> 56) % 256, (n >>> 48) % 256, (n >>> 40) % 256, (n >>> 32) % 256,
   (n >>> 24) % 256, (n >>> 16) % 256, (n >>> 8) % 256, n % 256]

def sha256pad (msg : List Nat) : List Nat :=
  let padZeros := (64 - ((msg.length + 9) % 64)) % 64
  msg ++ [0x80] ++ List.replicate padZeros 0 ++ beBytes8 (msg.length * 8)

def chunks64 (l : List Nat) : List (List Nat) :=
  if h : l = [] then []
  else
    have : 0 < l.length := List.length_pos.mpr h
    l.take 64 :: chunks64 (l.drop 64)
termination_by l.length
decreasing_by simp only [List.length_drop]; omega

def wordBytes (w : Nat) : List Nat :=
  [(w >>> 24) % 256, (w >>> 16) % 256, (w >>> 8) % 256, w % 256]

def sha256Bytes (msg : List Nat) : List Nat :=
  let fin := (chunks64 (sha256pad msg)).foldl processBlock initH
  wordBytes fin.a ++ wordBytes fin.b ++ wordBytes fin.c ++ wordBytes fin.d ++
  wordBytes fin.e ++ wordBytes fin.f ++ wordBytes fin.g ++ wordBytes fin.hh

/-! ## Hex encoding (`digest('hex')`) -/

def hexCharSet : List Char := "0123456789abcdef".toList

def hexDigitChar (n : Nat) : Char :=
  if n % 16 < 10 then Char.ofNat (48 + n % 16) else Char.ofNat (87 + n % 16)

def byteHex (b : Nat) : List Char := [hexDigitChar (b / 16), hexDigitChar b]

def hexEncode (bs : List Nat) : List Char := bs.flatMap byteHex

/-- src/lib/auth.ts `hashNickname`: sha256 hex digest of the trimmed,
lowercased nickname. A pure function of its input. -/
def hashNickname (nickname : String) : String :=
  String.mk (hexEncode (sha256Bytes (utf8Encode (jsNormalize nickname))))

/-! ## Account / Bookmark store (src/pages/api/login.ts, bookmarks.ts)

The relational store is embedded as lists of rows: `accounts` holds the
`hash` primary keys, `bookmarks` the `(account_hash, slug)` pairs.
`INSERT OR IGNORE` is insert-if-absent; SQL `DELETE ... WHERE` removes every
matching row. -/

structure AccountState where
  accounts : List String
  bookmarks : List (String × String)
deriving DecidableEq

/-- Truthiness of an optional string field from a JSON body / form:
`null`/absent and `""` are falsy. -/
def strTruthy : Option String → Bool
  | none => false
  | some s => s != ""

structure LoginResp where
  httpStatus : Nat
  err : Option String
  bookmarks : Option (List String)
  cookieHash : Option String
deriving DecidableEq

/-- POST /api/login: trim the nickname, reject when shorter than 3
characters, otherwise hash it, `INSERT OR IGNORE` the account row, and return
the bookmarked slugs for that hash (the cookie carries the hash). -/
def loginPost (st : AccountState) (nickname : Option String) : LoginResp × AccountState :=
  match nickname with
  | none => ({ httpStatus := 400, err := some "Nickname must be at least 3 characters",
               bookmarks := none, cookieHash := none }, st)
  | some raw =>
    let t := jsTrim raw
    if t.length < 3 then
      ({ httpStatus := 400, err := some "Nickname must be at least 3 characters",
         bookmarks := none, cookieHash := none }, st)
    else
      let h := hashNickname t
      let accounts' := if h ∈ st.accounts then st.accounts else st.accounts ++ [h]
      let bms := (st.bookmarks.filter (fun p => p.1 == h)).map (fun p => p.2)
      ({ httpStatus := 200, err := none, bookmarks := some bms, cookieHash := some h },
       { st with accounts := accounts' })

structure ToggleResp where
  httpStatus : Nat
  err : Option String
  bookmarked : Option Bool
deriving DecidableEq

/-- POST /api/bookmarks: requires the account cookie (`hash`), requires a
truthy `slug`, then toggles the `(hash, slug)` row: delete when present,
insert when absent, reporting the new membership. -/
def togglePost (st : AccountState) (hash : Option String) (slug : Option String) :
    ToggleResp × AccountState :=
  match hash with
  | none => ({ httpStatus := 401, err := some "Not logged in", bookmarked := none }, st)
  | some h =>
    if strTruthy slug = false then
      ({ httpStatus := 400, err := some "Missing slug", bookmarked := none }, st)
    else
      let s := slug.getD ""
      if (h, s) ∈ st.bookmarks then
        ({ httpStatus := 200, err := none, bookmarked := some false },
         { st with bookmarks := st.bookmarks.filter (fun p => p != (h, s)) })
      else
        ({ httpStatus := 200, err := none, bookmarked := some true },
         { st with bookmarks := st.bookmarks ++ [(h, s)] })

/-! ## Submission intake (src/pages/api/submit.ts, evolved revision)

The handler accepts a multipart form with an optional `csnades_url`, `map`,
`side`, descriptive fields, and up to three file slots.  `formData.get`
yields `null` for a missing field; an empty string is falsy like `null`. -/

/-- A `File` from a multipart form as the handler observes it: only its size
and (opaquely) its bytes matter.  The byte content is summarized by `size`
together with an opaque tag so staged writes can be traced to their slot. -/
structure JsFile where
  size : Nat
  content : List Nat
deriving DecidableEq

structure IntakeForm where
  csnadesUrl : Option String
  mapName : Option String
  side : Option String
  lineupName : Option String
  standDesc : Option String
  aimDesc : Option String
  throwType : Option String
  position : Option JsFile
  aim : Option JsFile
  result : Option JsFile
deriving DecidableEq

/-- The check `formData.has('position') && formData.has('aim') && formData.has('result')`. -/
def hasScreenshots (f : IntakeForm) : Bool :=
  f.position.isSome && f.aim.isSome && f.result.isSome

def VALID_MAPS : List String :=
  ["mirage", "dust2", "inferno", "overpass", "ancient", "anubis", "nuke"]

def VALID_THROW_TYPES : List String := ["left", "right", "left_jump", "run_left"]

def MAX_FILE_SIZE : Nat := 10 * 1024 * 1024

/-- Models the platform WHATWG `URL` constructor as the handler observes it:
whether the string parses as an absolute URL, and the (lowercased) hostname
with any userinfo and port stripped.  Restricted to the
`scheme://authority/...` shape the handler's inputs take. -/
def parseUrlHostname (u : String) : Option String :=
  let cs := u.toList
  let scheme := cs.takeWhile (fun c => c != ':')
  let rest := cs.drop scheme.length
  match rest with
  | ':' :: '/' :: '/' :: tail =>
    if scheme ≠ [] ∧
        scheme.all (fun c => c.isAlpha || c.isDigit || c == '+' || c == '-' || c == '.') = true ∧
        scheme.head?.elim false Char.isAlpha = true then
      let auth := tail.takeWhile (fun c => c != '/' && c != '?' && c != '#')
      let hostPart :=
        if auth.contains '@' then (auth.reverse.takeWhile (fun c => c != '@')).reverse
        else auth
      let host := hostPart.takeWhile (fun c => c != ':')
      if host = [] then none else some (String.mk (host.map Char.toLower))
    else none
  | _ => none

/-- The check `!x || !x.trim()`: the required descriptive fields must be non-empty
after trimming. -/
def blankField (o : Option String) : Bool :=
  match o with
  | none => true
  | some s => s == "" || jsTrim s == ""

/-- The per-slot file validation inside the screenshots loop: missing/empty,
then the 10 MiB size cap. -/
def checkFile (name : String) (fo : Option JsFile) : Option String :=
  match fo with
  | none => some ("Missing " ++ name ++ " screenshot")
  | some fl =>
    if fl.size = 0 then some ("Missing " ++ name ++ " screenshot")
    else if fl.size > MAX_FILE_SIZE then some (name ++ " screenshot exceeds 10 MB limit")
    else none

def intakeCheckFiles (f : IntakeForm) : Option String :=
  if hasScreenshots f then
    match checkFile "position" f.position with
    | some e => some e
    | none =>
      match checkFile "aim" f.aim with
      | some e => some e
      | none => checkFile "result" f.result
  else none

def intakeCheckFields (f : IntakeForm) : Option String :=
  if hasScreenshots f then
    if blankField f.lineupName then some "Lineup name is required with screenshots"
    else if blankField f.standDesc then some "Stand description is required with screenshots"
    else if blankField f.aimDesc then some "Aim description is required with screenshots"
    else if !strTruthy f.throwType || !(VALID_THROW_TYPES.contains (f.throwType.getD "")) then
      some "Valid throw type is required with screenshots"
    else intakeCheckFiles f
  else intakeCheckFiles f

def intakeCheckMapSide (f : IntakeForm) : Option String :=
  if hasScreenshots f && !strTruthy f.mapName then
    some "Map name is required with screenshots"
  else if strTruthy f.mapName && !(VALID_MAPS.contains (f.mapName.getD "")) then
    some "Invalid map name"
  else if strTruthy f.side && !(f.side.getD "" == "t" || f.side.getD "" == "ct") then
    some "Invalid side value"
  else intakeCheckFields f

/-- The handler's fail-fast validation chain; `some msg` is the 400 error
body of the first failing check, `none` means all checks pass. -/
def intakeCheck (f : IntakeForm) : Option String :=
  if !strTruthy f.csnadesUrl && !hasScreenshots f then
    some "Provide a csnades.gg URL or 3 screenshots"
  else if strTruthy f.csnadesUrl then
    match parseUrlHostname (f.csnadesUrl.getD "") with
    | none => some "Invalid URL format"
    | some hn =>
      if hn != "csnades.gg" && hn != "www.csnades.gg" then
        some "URL must be from csnades.gg"
      else intakeCheckMapSide f
  else intakeCheckMapSide f

/-! ### Submission store and staging area -/

inductive SubStatus
  | pending
  | approved
  | rejected
deriving DecidableEq

/-- The opaque `data` payload serialized into the row: `hasScreenshots`, and
in screenshot mode the trimmed descriptive fields. -/
structure SubmData where
  hasShots : Bool
  lineupName : Option String
  standDesc : Option String
  aimDesc : Option String
  throwType : Option String
deriving DecidableEq

/-- A `submissions` row.  `status` defaults to `pending` and is constrained
by the schema CHECK to {pending, approved, rejected}.  The `side` column is
present in the evolved revision of the schema (the spec records the evolved
revision adds it; the checked-in `initSchema` predates it). -/
structure SubmRow where
  id : Nat
  status : SubStatus
  csnadesUrl : Option String
  mapName : Option String
  side : Option String
  data : SubmData
  submittedAt : Nat
  reviewedAt : Option Nat
deriving DecidableEq

/-- Store plus staging area.  `staging` maps a submission id (the directory
name) to the named files inside its staging directory; `nextId` is the
AUTOINCREMENT counter, so an insert yields `nextId` as `lastInsertRowid`. -/
structure SiteState where
  submissions : List SubmRow
  nextId : Nat
  staging : List (Nat × List (String × JsFile))
deriving DecidableEq

structure IntakeResp where
  httpStatus : Nat
  err : Option String
  newId : Option Nat
deriving DecidableEq

/-- The row inserted on success: status defaults to `pending`,
`reviewed_at` to NULL; the data payload carries the trimmed fields only in
screenshot mode. -/
def intakeRow (id : Nat) (now : Nat) (f : IntakeForm) : SubmRow :=
  { id := id
    status := .pending
    csnadesUrl := f.csnadesUrl
    mapName := f.mapName
    side := f.side
    data :=
      { hasShots := hasScreenshots f
        lineupName := if hasScreenshots f then some (jsTrim (f.lineupName.getD "")) else none
        standDesc := if hasScreenshots f then some (jsTrim (f.standDesc.getD "")) else none
        aimDesc := if hasScreenshots f then some (jsTrim (f.aimDesc.getD "")) else none
        throwType := if hasScreenshots f then f.throwType else none }
    submittedAt := now
    reviewedAt := none }

/-- One iteration of the staging write loop: `if (file && file.size > 0)`
write it under the fixed name `<slot>.jpg`. -/
def writeSlot (name : String) (fo : Option JsFile) : List (String × JsFile) :=
  match fo with
  | none => []
  | some fl => if fl.size > 0 then [(name ++ ".jpg", fl)] else []

/-- POST /api/submit: validate fail-fast; on success insert exactly one row
(yielding `nextId`), and only then, when screenshots were supplied, create
the staging directory keyed by that new id and write the three fixed-name
files. -/
def intakePost (st : SiteState) (f : IntakeForm) (now : Nat) : IntakeResp × SiteState :=
  match intakeCheck f with
  | some e => ({ httpStatus := 400, err := some e, newId := none }, st)
  | none =>
    let id := st.nextId
    let st1 : SiteState :=
      { st with submissions := st.submissions ++ [intakeRow id now f], nextId := id + 1 }
    let st2 : SiteState :=
      if hasScreenshots f then
        { st1 with staging := st1.staging ++
            [(id, writeSlot "position" f.position ++ writeSlot "aim" f.aim ++
                  writeSlot "result" f.result)] }
      else st1
    ({ httpStatus := 200, err := none, newId := some id }, st2)

/-! ## Moderation review (src/admin .../api/review.ts, evolved revision)

POST body `{id, status}`.  The guard only checks that `id` is truthy and
`status` is one of `approved`, `rejected`, `deleted` (JS `includes`).  For
`deleted` it first `rm`s the staging directory of that id recursively with
`force` (absence tolerated), then deletes the row; otherwise it runs one
UPDATE setting `status` and `reviewed_at = unixepoch()` together, with no
guard on the current status.  Here `id` is the ordinary numeric submission
identifier (`0` is the falsy numeric id); the path behaviour of string ids
is modelled separately below. -/

structure ReviewResp where
  httpStatus : Nat
  err : Option String
deriving DecidableEq

/-- The status string bound into `UPDATE submissions SET status = ?` for the
non-delete branch; the guard ensures it is `approved` or `rejected`. -/
def statusOfString (s : String) : SubStatus :=
  if s = "approved" then .approved else .rejected

def reviewPost (st : SiteState) (id : Nat) (target : String) (now : Nat) :
    ReviewResp × SiteState :=
  if id = 0 ∨ target ∉ (["approved", "rejected", "deleted"] : List String) then
    ({ httpStatus := 400, err := some "Invalid data" }, st)
  else if target = "deleted" then
    ({ httpStatus := 200, err := none },
     { st with staging := st.staging.filter (fun p => p.1 != id),
               submissions := st.submissions.filter (fun r => r.id != id) })
  else
    ({ httpStatus := 200, err := none },
     { st with submissions := st.submissions.map (fun r =>
         if r.id = id then { r with status := statusOfString target, reviewedAt := some now }
         else r) })

/-! ## Staging path arithmetic for the delete branch (string ids)

The review endpoint validates `id` only for truthiness, then computes
`join(process.cwd(), '..', 'staging', String(id))` and removes that path
recursively.  `id` comes from a JSON body, so it can be a string.  Paths are
modelled as segment lists rooted at the filesystem root; `path.join`
concatenates and then normalizes lexically (drops empty and `.` segments,
resolves `..` upward, clamping at the root). -/

inductive JVal
  | jnum (n : Int)
  | jstr (s : String)
  | jnull
  | jbool (b : Bool)
deriving DecidableEq

/-- JavaScript truthiness of a JSON value. -/
def jtruthy : JVal → Bool
  | .jnum n => n != 0
  | .jstr s => s != ""
  | .jnull => false
  | .jbool b => b

/-- JS `String(id)`. -/
def jsStringOf : JVal → String
  | .jnum n => toString n
  | .jstr s => s
  | .jnull => "null"
  | .jbool b => cond b "true" "false"

/-- Split on `'/'`, keeping empty segments (as `String.prototype.split`
does); empty segments are later dropped by normalization, as `path.join`
drops them. -/
def splitSegsAux : List Char → List Char → List String
  | [], cur => [String.mk cur.reverse]
  | c :: rest, cur =>
    if c = '/' then String.mk cur.reverse :: splitSegsAux rest []
    else splitSegsAux rest (c :: cur)

def splitSlash (s : String) : List String := splitSegsAux s.toList []

def normStep (acc : List String) (seg : String) : List String :=
  if seg = "" ∨ seg = "." then acc
  else if seg = ".." then acc.dropLast
  else acc ++ [seg]

/-- Lexical normalization of an absolute path's segments, as `path.join`
performs after concatenation. -/
def normSegs (segs : List String) : List String := segs.foldl normStep []

/-- The directory the delete branch hands to
`rm(..., {recursive: true, force: true})`, when the guard admits `id`. -/
def reviewRmTarget (cwd : List String) (id : JVal) : Option (List String) :=
  if jtruthy id then
    some (normSegs (cwd ++ [".."] ++ ["staging"] ++ splitSlash (jsStringOf id)))
  else none

/-- The staging root `join(process.cwd(), '..', 'staging')`. -/
def stagingRoot (cwd : List String) : List String := normSegs (cwd ++ ["..", "staging"])

/-! ## Seeded shuffle (src/lib/nades.ts `seededShuffle`)

The loop mutates a copy of the array in place; here each iteration is a
functional swap.  JavaScript evaluates `s * 1103515245 + 12345` in IEEE-754
double arithmetic: the product and the sum are each rounded to a 53-bit
significand before `& 0x7fffffff` truncates to the low 31 bits.  Seeds are
taken exactly representable (in the program they are item counts). -/

def listSwap {α : Type} (l : List α) (i j : Nat) : List α :=
  match l.get? i, l.get? j with
  | some a, some b => (l.set i b).set j a
  | _, _ => l

/-- Round a nonnegative integer to the nearest IEEE-754 double (53-bit
significand, round to nearest, ties to even).  Exact below `2^53`. -/
def bitLenAux : Nat → Nat → Nat
  | 0, _ => 0
  | fuel + 1, n => if n = 0 then 0 else bitLenAux fuel (n / 2) + 1

/-- Number of binary digits of `n` (`n` itself bounds the recursion depth). -/
def bitLen (n : Nat) : Nat := bitLenAux n n

def fl53 (n : Nat) : Nat :=
  if n < 2 ^ 53 then n
  else
    let k := bitLen n - 53
    let q := n >>> k
    let r := n - (q <<< k)
    let half := 2 ^ (k - 1)
    let q' := if half < r ∨ (r = half ∧ q % 2 = 1) then q + 1 else q
    q' <<< k

/-- One seed update as JavaScript computes
`s = (s * 1103515245 + 12345) & 0x7fffffff`: double-rounded product and sum,
then the low 31 bits (`ToInt32` of a nonnegative integer, sign bit masked). -/
def jsStep (s : Nat) : Nat := fl53 (fl53 (s * 1103515245) + 12345) % 2 ^ 31

/-- The exact integer recurrence the spec prescribes for ports:
`seed = (seed * 1103515245 + 12345) mod 2^31`. -/
def refStep (s : Nat) : Nat := (s * 1103515245 + 12345) % 2 ^ 31

/-- Fisher–Yates from the end: at index `i` (down to 1) update the seed,
take `j = seed mod (i+1)`, swap positions `i` and `j`. -/
def fyAux {α : Type} (step : Nat → Nat) : Nat → Nat → List α → List α
  | _, 0, l => l
  | s, Nat.succ im, l =>
    let s' := step s
    let j := s' % (im + 2)
    fyAux step s' im (listSwap l (im + 1) j)

/-- The source `seededShuffle(arr, seed)` under JavaScript number semantics. -/
def seededShuffle {α : Type} (arr : List α) (seed : Nat) : List α :=
  fyAux jsStep seed (arr.length - 1) arr

/-- The exact-integer reference shuffle the spec demands bit-identical
ordering with. -/
def refShuffle {α : Type} (arr : List α) (seed : Nat) : List α :=
  fyAux refStep seed (arr.length - 1) arr

/-! ## Theorems -/

/-! ### Identity Hasher (C7) -/

theorem hexDigitChar_mem (n : Nat) : hexDigitChar n ∈ hexCharSet := by
  have h : n % 16 < 16 := Nat.mod_lt _ (by norm_num)
  unfold hexDigitChar
  interval_cases h' : n % 16 <;> decide

theorem hexEncode_mem {c : Char} {bs : List Nat} (hc : c ∈ hexEncode bs) :
    c ∈ hexCharSet := by
  rcases List.mem_flatMap.mp hc with ⟨b, _, hb⟩
  rcases List.mem_pair.mp hb with h | h <;> subst h <;> exact hexDigitChar_mem _

theorem hexEncode_length (bs : List Nat) : (hexEncode bs).length = 2 * bs.length := by
  induction bs with
  | nil => rfl
  | cons b t ih =>
      have h : hexEncode (b :: t) = byteHex b ++ hexEncode t := rfl
      rw [h, List.length_append, ih]
      simp only [byteHex, List.length_cons, List.length_nil]
      omega

theorem sha256Bytes_length (msg : List Nat) : (sha256Bytes msg).length = 32 := by
  simp [sha256Bytes, wordBytes]

/-- C7: any two nicknames with the same normalized form (trim surrounding
whitespace, then lowercase) hash to the same identifier, and every hash is a
64-character string drawn from the lowercase hexadecimal alphabet.
`hashNickname` is a pure function of its argument (the embedding is a plain
function), so it has no side effects. -/
theorem hashNickname_spec :
    (∀ a b : String, jsNormalize a = jsNormalize b → hashNickname a = hashNickname b) ∧
    (∀ s : String, (hashNickname s).length = 64 ∧
      ∀ c ∈ (hashNickname s).toList, c ∈ hexCharSet) := by
  constructor
  · intro a b hab
    unfold hashNickname
    rw [hab]
  · intro s
    constructor
    · show (hexEncode (sha256Bytes (utf8Encode (jsNormalize s)))).length = 64
      rw [hexEncode_length, sha256Bytes_length]
    · intro c hc
      exact hexEncode_mem hc

/-- Witness for C7 at concrete inputs: `"  Bob "` and `"bob"` normalize to the
same string, hence hash identically. -/
theorem hashNickname_spec_witness :
    jsNormalize "  Bob " = jsNormalize "bob" ∧
      hashNickname "  Bob " = hashNickname "bob" ∧
      (hashNickname "bob").length = 64 :=
  ⟨by decide, hashNickname_spec.1 _ _ (by decide), (hashNickname_spec.2 "bob").1⟩

/-! ### Bookmark toggle (C6) -/

theorem strTruthy_some_iff (s : String) : strTruthy (some s) = true ↔ s ≠ "" := by
  simp [strTruthy]

/-- C6: the bookmark toggle is a guarded true toggle.  Without an account
hash it answers 401 and mutates nothing; with a falsy slug it answers 400 and
mutates nothing; when the `(hash, slug)` pair is present it deletes the row
and answers `bookmarked = false`; when absent it inserts the row and answers
`bookmarked = true`; the returned flag always matches the row's presence in
the resulting state; and two successive toggles leave exactly the original
rows. -/
theorem togglePost_spec :
    (∀ st slug, togglePost st none slug =
      ({ httpStatus := 401, err := some "Not logged in", bookmarked := none }, st)) ∧
    (∀ st h slug, strTruthy slug = false → togglePost st (some h) slug =
      ({ httpStatus := 400, err := some "Missing slug", bookmarked := none }, st)) ∧
    (∀ st h s, s ≠ "" → (h, s) ∈ st.bookmarks →
      togglePost st (some h) (some s) =
        ({ httpStatus := 200, err := none, bookmarked := some false },
         { st with bookmarks := st.bookmarks.filter (fun p => p != (h, s)) }) ∧
      (h, s) ∉ (togglePost st (some h) (some s)).2.bookmarks) ∧
    (∀ st h s, s ≠ "" → (h, s) ∉ st.bookmarks →
      togglePost st (some h) (some s) =
        ({ httpStatus := 200, err := none, bookmarked := some true },
         { st with bookmarks := st.bookmarks ++ [(h, s)] }) ∧
      (h, s) ∈ (togglePost st (some h) (some s)).2.bookmarks) ∧
    (∀ st h s b, s ≠ "" →
      (togglePost st (some h) (some s)).1.bookmarked = some b →
      (b = true ↔ (h, s) ∈ (togglePost st (some h) (some s)).2.bookmarks)) ∧
    (∀ st h s q, s ≠ "" →
      (q ∈ (togglePost (togglePost st (some h) (some s)).2 (some h) (some s)).2.bookmarks ↔
        q ∈ st.bookmarks)) := by
  have hdel : ∀ (st : AccountState) (h s : String), s ≠ "" → (h, s) ∈ st.bookmarks →
      togglePost st (some h) (some s) =
        ({ httpStatus := 200, err := none, bookmarked := some false },
         { st with bookmarks := st.bookmarks.filter (fun p => p != (h, s)) }) := by
    intro st h s hs hmem
    simp [togglePost, strTruthy, hs, hmem]
  have hins : ∀ (st : AccountState) (h s : String), s ≠ "" → (h, s) ∉ st.bookmarks →
      togglePost st (some h) (some s) =
        ({ httpStatus := 200, err := none, bookmarked := some true },
         { st with bookmarks := st.bookmarks ++ [(h, s)] }) := by
    intro st h s hs hmem
    simp [togglePost, strTruthy, hs, hmem]
  refine ⟨fun st slug => rfl, ?_, ?_, ?_, ?_, ?_⟩
  · intro st h slug hsl
    cases slug with
    | none => rfl
    | some s =>
        have hs : s = "" := by simpa [strTruthy] using hsl
        subst hs
        rfl
  · intro st h s hs hmem
    refine ⟨hdel st h s hs hmem, ?_⟩
    rw [hdel st h s hs hmem]
    simp [List.mem_filter]
  · intro st h s hs hmem
    refine ⟨hins st h s hs hmem, ?_⟩
    rw [hins st h s hs hmem]
    simp
  · intro st h s b hs hb
    by_cases hmem : (h, s) ∈ st.bookmarks
    · rw [hdel st h s hs hmem] at hb ⊢
      cases hb
      simp [List.mem_filter]
    · rw [hins st h s hs hmem] at hb ⊢
      cases hb
      simp
  · intro st h s q hs
    by_cases hmem : (h, s) ∈ st.bookmarks
    · rw [hdel st h s hs hmem]
      have hnot : (h, s) ∉ st.bookmarks.filter (fun p => p != (h, s)) := by
        simp [List.mem_filter]
      rw [hins _ h s hs hnot]
      simp only [List.mem_append, List.mem_filter, List.mem_singleton]
      constructor
      · rintro (⟨hq, _⟩ | hq)
        · exact hq
        · subst hq; exact hmem
      · intro hq
        by_cases hqp : q = (h, s)
        · exact Or.inr hqp
        · exact Or.inl ⟨hq, by simpa using hqp⟩
    · rw [hins st h s hs hmem]
      have hmem2 : (h, s) ∈ st.bookmarks ++ [(h, s)] := by simp
      rw [hdel _ h s hs hmem2]
      simp only [List.mem_filter, List.mem_append, List.mem_singleton]
      constructor
      · rintro ⟨hq | hq, hne⟩
        · exact hq
        · simp [hq] at hne
      · intro hq
        have : q ≠ (h, s) := fun hEq => hmem (hEq ▸ hq)
        exact ⟨Or.inl hq, by simpa using this⟩

/-- Witness for C6: on an empty store, toggling `("a","s")` inserts the row
and reports `bookmarked = true`; toggling again removes it. -/
theorem togglePost_spec_witness :
    ("s" : String) ≠ "" ∧
    (togglePost ⟨["a"], []⟩ (some "a") (some "s")).1.bookmarked = some true ∧
    (("a", "s") ∈ (togglePost ⟨["a"], []⟩ (some "a") (some "s")).2.bookmarks) ∧
    (("x", "y") ∈
      (togglePost (togglePost ⟨["a"], [("x", "y")]⟩ (some "x") (some "y")).2
        (some "x") (some "y")).2.bookmarks) := by
  refine ⟨by decide, ?_, ?_, ?_⟩
  · have h := (togglePost_spec.2.2.2.1 ⟨["a"], []⟩ "a" "s" (by decide) (by simp)).1
    rw [h]
  · exact (togglePost_spec.2.2.2.1 ⟨["a"], []⟩ "a" "s" (by decide) (by simp)).2
  · exact (togglePost_spec.2.2.2.2.2 ⟨["a"], [("x", "y")]⟩ "x" "y" ("x", "y")
      (by decide)).mpr (by simp)

/-! ### Login (C8) -/

/-- C8: login rejects nicknames shorter than 3 characters after trimming with
a 400 and no store mutation; a valid login answers 200, returns the hash as
the identifier, inserts the account row at most once (a second login with the
same nickname changes nothing and yields the same identifier), and returns
exactly the slugs bookmarked under that identifier. -/
theorem loginPost_spec :
    (∀ st, loginPost st none =
      ({ httpStatus := 400, err := some "Nickname must be at least 3 characters",
         bookmarks := none, cookieHash := none }, st)) ∧
    (∀ st raw, (jsTrim raw).length < 3 → loginPost st (some raw) =
      ({ httpStatus := 400, err := some "Nickname must be at least 3 characters",
         bookmarks := none, cookieHash := none }, st)) ∧
    (∀ st raw, 3 ≤ (jsTrim raw).length →
      (loginPost st (some raw)).1.httpStatus = 200 ∧
      (loginPost st (some raw)).1.cookieHash = some (hashNickname (jsTrim raw)) ∧
      hashNickname (jsTrim raw) ∈ (loginPost st (some raw)).2.accounts ∧
      (loginPost st (some raw)).2.bookmarks = st.bookmarks ∧
      (loginPost (loginPost st (some raw)).2 (some raw)).2.accounts =
        (loginPost st (some raw)).2.accounts ∧
      (loginPost (loginPost st (some raw)).2 (some raw)).1.cookieHash =
        (loginPost st (some raw)).1.cookieHash ∧
      (∃ l, (loginPost st (some raw)).1.bookmarks = some l ∧
        ∀ sl, sl ∈ l ↔ (hashNickname (jsTrim raw), sl) ∈ st.bookmarks)) := by
  refine ⟨fun st => rfl, ?_, ?_⟩
  · intro st raw hlen
    simp [loginPost, hlen]
  · intro st raw hlen
    have hnlt : ¬ (jsTrim raw).length < 3 := by omega
    have hmemAcc : hashNickname (jsTrim raw) ∈
        (loginPost st (some raw)).2.accounts := by
      simp only [loginPost, hnlt, if_false]
      by_cases hmem : hashNickname (jsTrim raw) ∈ st.accounts <;> simp [hmem]
    refine ⟨by simp [loginPost, hnlt], by simp [loginPost, hnlt], hmemAcc,
      by simp [loginPost, hnlt], ?_, ?_, ?_⟩
    · simp only [loginPost, hnlt, if_false]
      by_cases hmem : hashNickname (jsTrim raw) ∈ st.accounts <;> simp [hmem]
    · simp [loginPost, hnlt]
    · refine ⟨(st.bookmarks.filter (fun p => p.1 == hashNickname (jsTrim raw))).map
        (fun p => p.2), by simp [loginPost, hnlt], ?_⟩
      intro sl
      constructor
      · intro hsl
        rcases List.mem_map.mp hsl with ⟨p, hp, hp2⟩
        rcases List.mem_filter.mp hp with ⟨hpmem, hpeq⟩
        have h1 : p.1 = hashNickname (jsTrim raw) := by simpa using hpeq
        have : p = (hashNickname (jsTrim raw), sl) := by
          cases p
          simp_all
        rw [← this]
        exact hpmem
      · intro hsl
        refine List.mem_map.mpr ⟨(hashNickname (jsTrim raw), sl), ?_, rfl⟩
        exact List.mem_filter.mpr ⟨hsl, by simp⟩

/-- Witness for C8 with nickname `"bob"` on an empty store. -/
theorem loginPost_spec_witness :
    3 ≤ (jsTrim "bob").length ∧
    (loginPost ⟨[], []⟩ (some "bob")).1.httpStatus = 200 ∧
    (loginPost (loginPost ⟨[], []⟩ (some "bob")).2 (some "bob")).2.accounts =
      (loginPost ⟨[], []⟩ (some "bob")).2.accounts := by
  have h := loginPost_spec.2.2 ⟨[], []⟩ "bob" (by decide)
  exact ⟨by decide, h.1, h.2.2.2.2.1⟩

/-! ### Submission intake (C4, C5) -/

theorem intakeCheck_none_mapSide {f : IntakeForm} (h : intakeCheck f = none) :
    intakeCheckMapSide f = none := by
  unfold intakeCheck at h
  split at h
  · simp at h
  · split at h
    · split at h
      · simp at h
      · split at h
        · simp at h
        · exact h
    · exact h

theorem intakeCheckMapSide_none_fields {f : IntakeForm} (h : intakeCheckMapSide f = none) :
    intakeCheckFields f = none := by
  unfold intakeCheckMapSide at h
  split at h
  · simp at h
  · split at h
    · simp at h
    · split at h
      · simp at h
      · exact h

theorem intakeCheckFields_none_files {f : IntakeForm} (h : intakeCheckFields f = none) :
    intakeCheckFiles f = none := by
  unfold intakeCheckFields at h
  split at h
  · split at h
    · simp at h
    · split at h
      · simp at h
      · split at h
        · simp at h
        · split at h
          · simp at h
          · exact h
  · exact h

theorem checkFile_none {name : String} {fo : Option JsFile} (h : checkFile name fo = none) :
    ∃ fl, fo = some fl ∧ 0 < fl.size ∧ fl.size ≤ MAX_FILE_SIZE := by
  cases fo with
  | none => simp [checkFile] at h
  | some fl =>
    refine ⟨fl, rfl, ?_, ?_⟩ <;>
    · unfold checkFile at h
      by_cases h0 : fl.size = 0
      · simp [h0] at h
      · by_cases hM : fl.size > MAX_FILE_SIZE
        · simp [h0, hM] at h
        · omega

theorem intakeCheckFiles_none {f : IntakeForm} (h : intakeCheckFiles f = none)
    (hs : hasScreenshots f = true) :
    checkFile "position" f.position = none ∧ checkFile "aim" f.aim = none ∧
      checkFile "result" f.result = none := by
  unfold intakeCheckFiles at h
  rw [if_pos hs] at h
  cases hp : checkFile "position" f.position with
  | some e => rw [hp] at h; simp at h
  | none =>
    rw [hp] at h
    cases ha : checkFile "aim" f.aim with
    | some e => rw [ha] at h; simp at h
    | none =>
      rw [ha] at h
      exact ⟨rfl, rfl, h⟩

theorem intakeCheck_none_url {f : IntakeForm} (h : intakeCheck f = none)
    (hns : hasScreenshots f = false) : strTruthy f.csnadesUrl = true := by
  cases hu : strTruthy f.csnadesUrl with
  | true => rfl
  | false => simp [intakeCheck, hu, hns] at h

/-- C4: on any submission request that passes all validation, exactly one new
row is inserted, with status `pending` and id `nextId` (the AUTOINCREMENT
value the insert yields); in URL mode `csnades_url` is stored and no staging
directory is created; in screenshot mode one staging directory keyed by the
new row's id is created containing exactly `position.jpg`, `aim.jpg`,
`result.jpg` (the staging write happens after the insert in the embedded
handler, keyed by the id the insert yielded). -/
theorem intakePost_success_spec (st : SiteState) (f : IntakeForm) (now : Nat)
    (h : intakeCheck f = none) :
    (intakePost st f now).1.httpStatus = 200 ∧
    (intakePost st f now).1.newId = some st.nextId ∧
    (intakePost st f now).2.submissions = st.submissions ++ [intakeRow st.nextId now f] ∧
    (intakeRow st.nextId now f).status = SubStatus.pending ∧
    (intakePost st f now).2.nextId = st.nextId + 1 ∧
    (hasScreenshots f = false →
      strTruthy f.csnadesUrl = true ∧
      (intakeRow st.nextId now f).csnadesUrl = f.csnadesUrl ∧
      (intakePost st f now).2.staging = st.staging) ∧
    (hasScreenshots f = true →
      ∃ p a r : JsFile, f.position = some p ∧ f.aim = some a ∧ f.result = some r ∧
        (intakePost st f now).2.staging =
          st.staging ++
            [(st.nextId, [("position.jpg", p), ("aim.jpg", a), ("result.jpg", r)])]) := by
  refine ⟨by simp [intakePost, h], by simp [intakePost, h], ?_, rfl, ?_, ?_, ?_⟩
  · cases hs : hasScreenshots f <;> simp [intakePost, h, hs]
  · cases hs : hasScreenshots f <;> simp [intakePost, h, hs]
  · intro hns
    exact ⟨intakeCheck_none_url h hns, rfl, by simp [intakePost, h, hns]⟩
  · intro hs
    obtain ⟨hp, ha, hr⟩ :=
      intakeCheckFiles_none
        (intakeCheckFields_none_files (intakeCheckMapSide_none_fields
          (intakeCheck_none_mapSide h))) hs
    obtain ⟨p, hpe, hppos, _⟩ := checkFile_none hp
    obtain ⟨a, hae, hapos, _⟩ := checkFile_none ha
    obtain ⟨r, hre, hrpos, _⟩ := checkFile_none hr
    refine ⟨p, a, r, hpe, hae, hre, ?_⟩
    simp [intakePost, h, hs, writeSlot, hpe, hae, hre, hppos, hapos, hrpos]

/-- Witness for C4: a URL-only submission and a full screenshot submission on
a concrete store. -/
theorem intakePost_success_spec_witness :
    intakeCheck ⟨some "https://csnades.gg/lineups/42", none, none, none, none, none, none,
        none, none, none⟩ = none ∧
    (intakePost ⟨[], 1, []⟩
        ⟨some "https://csnades.gg/lineups/42", none, none, none, none, none, none,
          none, none, none⟩ 7).1.httpStatus = 200 ∧
    (intakePost ⟨[], 1, []⟩
        ⟨some "https://csnades.gg/lineups/42", none, none, none, none, none, none,
          none, none, none⟩ 7).2.staging = [] ∧
    (intakePost ⟨[], 1, []⟩
        ⟨none, some "mirage", some "t", some "smoke", some "stand", some "aim",
          some "left_jump", some ⟨3, [1]⟩, some ⟨3, [2]⟩, some ⟨3, [3]⟩⟩ 7).2.staging =
      [(1, [("position.jpg", ⟨3, [1]⟩), ("aim.jpg", ⟨3, [2]⟩), ("result.jpg", ⟨3, [3]⟩)])] := by
  refine ⟨rfl, ?_, ?_, ?_⟩
  · exact (intakePost_success_spec ⟨[], 1, []⟩
      ⟨some "https://csnades.gg/lineups/42", none, none, none, none, none, none,
        none, none, none⟩ 7 rfl).1
  · exact ((intakePost_success_spec ⟨[], 1, []⟩
      ⟨some "https://csnades.gg/lineups/42", none, none, none, none, none, none,
        none, none, none⟩ 7 rfl).2.2.2.2.2.1 rfl).2.2
  · obtain ⟨p, a, r, hp, ha, hr, hst⟩ :=
      (intakePost_success_spec ⟨[], 1, []⟩
        ⟨none, some "mirage", some "t", some "smoke", some "stand", some "aim",
          some "left_jump", some ⟨3, [1]⟩, some ⟨3, [2]⟩, some ⟨3, [3]⟩⟩ 7 rfl).2.2.2.2.2.2 rfl
    cases hp
    cases ha
    cases hr
    exact hst

/-- The distinct 400 error bodies of the intake validation chain. -/
def intakeMsgs : List String :=
  ["Provide a csnades.gg URL or 3 screenshots", "Invalid URL format",
   "URL must be from csnades.gg", "Map name is required with screenshots",
   "Invalid map name", "Invalid side value",
   "Lineup name is required with screenshots",
   "Stand description is required with screenshots",
   "Aim description is required with screenshots",
   "Valid throw type is required with screenshots",
   "Missing position screenshot", "Missing aim screenshot",
   "Missing result screenshot", "position screenshot exceeds 10 MB limit",
   "aim screenshot exceeds 10 MB limit", "result screenshot exceeds 10 MB limit"]

theorem checkFile_ne_none_of_bad {name : String} {fl : JsFile}
    (hbad : fl.size = 0 ∨ MAX_FILE_SIZE < fl.size) :
    checkFile name (some fl) ≠ none := by
  by_cases h0 : fl.size = 0
  · simp [checkFile, h0]
  · have hM : fl.size > MAX_FILE_SIZE := by omega
    simp [checkFile, h0, hM]

theorem intakeCheckFiles_ne_none {f : IntakeForm} (hs : hasScreenshots f = true)
    (hbad : checkFile "position" f.position ≠ none ∨ checkFile "aim" f.aim ≠ none ∨
      checkFile "result" f.result ≠ none) :
    intakeCheckFiles f ≠ none := by
  intro hn
  unfold intakeCheckFiles at hn
  rw [if_pos hs] at hn
  cases hp : checkFile "position" f.position with
  | some e => rw [hp] at hn; simp at hn
  | none =>
    rw [hp] at hn
    cases ha : checkFile "aim" f.aim with
    | some e => rw [ha] at hn; simp at hn
    | none =>
      rw [ha] at hn
      rcases hbad with hb | hb | hb
      · exact hb hp
      · exact hb ha
      · exact hb hn

theorem intakeCheckFields_ne_none {f : IntakeForm} (hs : hasScreenshots f = true)
    (hbad : blankField f.lineupName = true ∨ blankField f.standDesc = true ∨
      blankField f.aimDesc = true ∨ strTruthy f.throwType = false ∨
      f.throwType.getD "" ∉ VALID_THROW_TYPES ∨ intakeCheckFiles f ≠ none) :
    intakeCheckFields f ≠ none := by
  intro hn
  unfold intakeCheckFields at hn
  rw [if_pos hs] at hn
  by_cases b1 : blankField f.lineupName = true
  · rw [if_pos b1] at hn; simp at hn
  · rw [if_neg b1] at hn
    by_cases b2 : blankField f.standDesc = true
    · rw [if_pos b2] at hn; simp at hn
    · rw [if_neg b2] at hn
      by_cases b3 : blankField f.aimDesc = true
      · rw [if_pos b3] at hn; simp at hn
      · rw [if_neg b3] at hn
        by_cases b4 : (!strTruthy f.throwType ||
            !(VALID_THROW_TYPES.contains (f.throwType.getD ""))) = true
        · rw [if_pos b4] at hn; simp at hn
        · rw [if_neg b4] at hn
          rcases hbad with hb | hb | hb | hb | hb | hb
          · exact b1 hb
          · exact b2 hb
          · exact b3 hb
          · exact b4 (by simp [hb])
          · exact b4 (by simp [by simpa using hb])
          · exact hb hn

theorem intakeCheckMapSide_ne_none {f : IntakeForm}
    (hbad : (hasScreenshots f = true ∧ strTruthy f.mapName = false) ∨
      (strTruthy f.mapName = true ∧ f.mapName.getD "" ∉ VALID_MAPS) ∨
      (strTruthy f.side = true ∧ f.side.getD "" ≠ "t" ∧ f.side.getD "" ≠ "ct") ∨
      intakeCheckFields f ≠ none) :
    intakeCheckMapSide f ≠ none := by
  intro hn
  unfold intakeCheckMapSide at hn
  by_cases c1 : (hasScreenshots f && !strTruthy f.mapName) = true
  · rw [if_pos c1] at hn; simp at hn
  · rw [if_neg c1] at hn
    by_cases c2 : (strTruthy f.mapName && !(VALID_MAPS.contains (f.mapName.getD ""))) = true
    · rw [if_pos c2] at hn; simp at hn
    · rw [if_neg c2] at hn
      by_cases c3 : (strTruthy f.side &&
          !(f.side.getD "" == "t" || f.side.getD "" == "ct")) = true
      · rw [if_pos c3] at hn; simp at hn
      · rw [if_neg c3] at hn
        rcases hbad with ⟨hb1, hb2⟩ | ⟨hb1, hb2⟩ | ⟨hb1, hb2, hb3⟩ | hb
        · exact c1 (by simp [hb1, hb2])
        · exact c2 (by simp [hb1, by simpa using hb2])
        · exact c3 (by simp [hb1, hb2, hb3])
        · exact hb hn

theorem intakeCheck_ne_none_of_mapSide {f : IntakeForm}
    (hm : intakeCheckMapSide f ≠ none) : intakeCheck f ≠ none :=
  fun hn => hm (intakeCheck_none_mapSide hn)

theorem checkFile_msg {name : String} {fo : Option JsFile} {e : String}
    (h : checkFile name fo = some e) :
    e = "Missing " ++ name ++ " screenshot" ∨
      e = name ++ " screenshot exceeds 10 MB limit" := by
  cases fo with
  | none =>
    have h' : some ("Missing " ++ name ++ " screenshot") = some e := h
    exact Or.inl (Option.some.inj h').symm
  | some fl =>
    simp only [checkFile] at h
    by_cases h0 : fl.size = 0
    · rw [if_pos h0] at h; cases h; exact Or.inl rfl
    · rw [if_neg h0] at h
      by_cases hM : fl.size > MAX_FILE_SIZE
      · rw [if_pos hM] at h; cases h; exact Or.inr rfl
      · rw [if_neg hM] at h; cases h

theorem intakeCheckFiles_msg {f : IntakeForm} {e : String}
    (h : intakeCheckFiles f = some e) : e ∈ intakeMsgs := by
  unfold intakeCheckFiles at h
  split at h
  · split at h
    next e1 heq =>
      cases h
      rcases checkFile_msg heq with rfl | rfl <;> decide
    next heq =>
      split at h
      next e2 heq2 =>
        cases h
        rcases checkFile_msg heq2 with rfl | rfl <;> decide
      next heq2 =>
        rcases checkFile_msg h with rfl | rfl <;> decide
  · simp at h

theorem intakeCheckFields_msg {f : IntakeForm} {e : String}
    (h : intakeCheckFields f = some e) : e ∈ intakeMsgs := by
  unfold intakeCheckFields at h
  split at h
  · split at h
    · cases h; decide
    · split at h
      · cases h; decide
      · split at h
        · cases h; decide
        · split at h
          · cases h; decide
          · exact intakeCheckFiles_msg h
  · exact intakeCheckFiles_msg h

theorem intakeCheckMapSide_msg {f : IntakeForm} {e : String}
    (h : intakeCheckMapSide f = some e) : e ∈ intakeMsgs := by
  unfold intakeCheckMapSide at h
  split at h
  · cases h; decide
  · split at h
    · cases h; decide
    · split at h
      · cases h; decide
      · exact intakeCheckFields_msg h

theorem intakeCheck_msg_mem {f : IntakeForm} {e : String}
    (h : intakeCheck f = some e) : e ∈ intakeMsgs := by
  unfold intakeCheck at h
  split at h
  · cases h; decide
  · split at h
    · split at h
      · cases h; decide
      · split at h
        · cases h; decide
        · exact intakeCheckMapSide_msg h
    · exact intakeCheckMapSide_msg h

/-- C5: every enumerated validation failure makes the intake handler answer
400 with an error message drawn from a fixed set of pairwise-distinct
messages, and any 400 answer leaves the store and staging area untouched.
The closed equations exhibit, for each failure class, the exact distinct
message produced. -/
theorem intakePost_reject_spec :
    (∀ st f now, (intakePost st f now).1.httpStatus = 400 →
      (intakePost st f now).2 = st ∧ (intakePost st f now).1.err ≠ none) ∧
    (∀ st f now,
      ((strTruthy f.csnadesUrl = false ∧ hasScreenshots f = false) ∨
       (strTruthy f.csnadesUrl = true ∧ parseUrlHostname (f.csnadesUrl.getD "") = none) ∨
       (∃ hn, strTruthy f.csnadesUrl = true ∧
          parseUrlHostname (f.csnadesUrl.getD "") = some hn ∧
          hn ≠ "csnades.gg" ∧ hn ≠ "www.csnades.gg") ∨
       (hasScreenshots f = true ∧ strTruthy f.mapName = false) ∨
       (strTruthy f.mapName = true ∧ f.mapName.getD "" ∉ VALID_MAPS) ∨
       (strTruthy f.side = true ∧ f.side.getD "" ≠ "t" ∧ f.side.getD "" ≠ "ct") ∨
       (hasScreenshots f = true ∧
         (blankField f.lineupName = true ∨ blankField f.standDesc = true ∨
          blankField f.aimDesc = true ∨ strTruthy f.throwType = false ∨
          f.throwType.getD "" ∉ VALID_THROW_TYPES)) ∨
       (hasScreenshots f = true ∧
         ((∃ fl, f.position = some fl ∧ (fl.size = 0 ∨ MAX_FILE_SIZE < fl.size)) ∨
          (∃ fl, f.aim = some fl ∧ (fl.size = 0 ∨ MAX_FILE_SIZE < fl.size)) ∨
          (∃ fl, f.result = some fl ∧ (fl.size = 0 ∨ MAX_FILE_SIZE < fl.size))))) →
      (intakePost st f now).1.httpStatus = 400 ∧ (intakePost st f now).2 = st ∧
      ∃ m, (intakePost st f now).1.err = some m ∧ m ∈ intakeMsgs) ∧
    intakeMsgs.Nodup ∧
    (intakeCheck ⟨none, none, none, none, none, none, none, none, none, none⟩ =
       some "Provide a csnades.gg URL or 3 screenshots" ∧
     intakeCheck ⟨some "not a url", none, none, none, none, none, none, none, none, none⟩ =
       some "Invalid URL format" ∧
     intakeCheck ⟨some "https://evil.example/x", none, none, none, none, none, none,
         none, none, none⟩ = some "URL must be from csnades.gg" ∧
     intakeCheck ⟨none, none, none, some "n", some "s", some "a", some "left",
         some ⟨3, [1]⟩, some ⟨3, [2]⟩, some ⟨3, [3]⟩⟩ =
       some "Map name is required with screenshots" ∧
     intakeCheck ⟨none, some "vertigo", none, some "n", some "s", some "a", some "left",
         some ⟨3, [1]⟩, some ⟨3, [2]⟩, some ⟨3, [3]⟩⟩ = some "Invalid map name" ∧
     intakeCheck ⟨none, some "mirage", some "x", some "n", some "s", some "a", some "left",
         some ⟨3, [1]⟩, some ⟨3, [2]⟩, some ⟨3, [3]⟩⟩ = some "Invalid side value" ∧
     intakeCheck ⟨none, some "mirage", some "t", some "  ", some "s", some "a", some "left",
         some ⟨3, [1]⟩, some ⟨3, [2]⟩, some ⟨3, [3]⟩⟩ =
       some "Lineup name is required with screenshots" ∧
     intakeCheck ⟨none, some "mirage", some "t", some "n", none, some "a", some "left",
         some ⟨3, [1]⟩, some ⟨3, [2]⟩, some ⟨3, [3]⟩⟩ =
       some "Stand description is required with screenshots" ∧
     intakeCheck ⟨none, some "mirage", some "t", some "n", some "s", some "", some "left",
         some ⟨3, [1]⟩, some ⟨3, [2]⟩, some ⟨3, [3]⟩⟩ =
       some "Aim description is required with screenshots" ∧
     intakeCheck ⟨none, some "mirage", some "t", some "n", some "s", some "a", some "banana",
         some ⟨3, [1]⟩, some ⟨3, [2]⟩, some ⟨3, [3]⟩⟩ =
       some "Valid throw type is required with screenshots" ∧
     intakeCheck ⟨none, some "mirage", some "t", some "n", some "s", some "a", some "left",
         some ⟨0, []⟩, some ⟨3, [2]⟩, some ⟨3, [3]⟩⟩ = some "Missing position screenshot" ∧
     intakeCheck ⟨none, some "mirage", some "t", some "n", some "s", some "a", some "left",
         some ⟨3, [1]⟩, some ⟨10485761, [2]⟩, some ⟨3, [3]⟩⟩ =
       some "aim screenshot exceeds 10 MB limit") := by
  have hreject : ∀ (st : SiteState) (f : IntakeForm) (now : Nat),
      intakeCheck f ≠ none →
      (intakePost st f now).1.httpStatus = 400 ∧ (intakePost st f now).2 = st ∧
        ∃ m, (intakePost st f now).1.err = some m ∧ m ∈ intakeMsgs := by
    intro st f now hne
    obtain ⟨e, he⟩ := Option.ne_none_iff_exists'.mp hne
    exact ⟨by simp [intakePost, he], by simp [intakePost, he], e,
      by simp [intakePost, he], intakeCheck_msg_mem he⟩
  refine ⟨?_, ?_, by decide, by decide⟩
  · intro st f now h400
    cases he : intakeCheck f with
    | none => simp [intakePost, he] at h400
    | some e =>
        refine ⟨by simp [intakePost, he], ?_⟩
        simp [intakePost, he]
  · intro st f now hbad
    refine hreject st f now ?_
    rcases hbad with ⟨h1, h2⟩ | ⟨h1, h2⟩ | ⟨hn, h1, h2, h3, h4⟩ | hb | hb | hb | ⟨hs, hb⟩ |
      ⟨hs, hb⟩
    · intro hn; simp [intakeCheck, h1, h2] at hn
    · intro hn; simp [intakeCheck, h1, h2] at hn
    · intro hn; simp [intakeCheck, h1, h2, h3, h4] at hn
    · exact intakeCheck_ne_none_of_mapSide (intakeCheckMapSide_ne_none (Or.inl hb))
    · exact intakeCheck_ne_none_of_mapSide (intakeCheckMapSide_ne_none (Or.inr (Or.inl hb)))
    · exact intakeCheck_ne_none_of_mapSide
        (intakeCheckMapSide_ne_none (Or.inr (Or.inr (Or.inl hb))))
    · exact intakeCheck_ne_none_of_mapSide (intakeCheckMapSide_ne_none (Or.inr (Or.inr
        (Or.inr (fun hfn => intakeCheckFields_ne_none hs (by tauto) hfn)))))
    · refine intakeCheck_ne_none_of_mapSide (intakeCheckMapSide_ne_none (Or.inr (Or.inr
        (Or.inr (fun hfn => intakeCheckFields_ne_none hs (Or.inr (Or.inr (Or.inr
          (Or.inr (Or.inr ?_))))) hfn)))))
      refine intakeCheckFiles_ne_none hs ?_
      rcases hb with ⟨fl, hfe, hflbad⟩ | ⟨fl, hfe, hflbad⟩ | ⟨fl, hfe, hflbad⟩
      · exact Or.inl (hfe ▸ checkFile_ne_none_of_bad hflbad)
      · exact Or.inr (Or.inl (hfe ▸ checkFile_ne_none_of_bad hflbad))
      · exact Or.inr (Or.inr (hfe ▸ checkFile_ne_none_of_bad hflbad))

/-- Witness for C5: the no-URL-no-screenshot request is answered 400 and the
state is untouched. -/
theorem intakePost_reject_spec_witness :
    (intakePost ⟨[], 1, []⟩ ⟨none, none, none, none, none, none, none, none, none, none⟩
      0).1.httpStatus = 400 ∧
    (intakePost ⟨[], 1, []⟩ ⟨none, none, none, none, none, none, none, none, none, none⟩
      0).2 = ⟨[], 1, []⟩ := by
  have h := intakePost_reject_spec.2.1 ⟨[], 1, []⟩
    ⟨none, none, none, none, none, none, none, none, none, none⟩ 0 (Or.inl ⟨rfl, rfl⟩)
  exact ⟨h.1, h.2.1⟩

/-! ### Moderation review (C1, C2, C3) -/

/-- C1 counterexample: the claim that a submission is mutated exactly once
fails.  A row already decided (`approved`, reviewed at 5) is mutated again by
a later `rejected` review request, which overwrites both status and review
timestamp. -/
theorem review_once_counterexample :
    (reviewPost
        ⟨[⟨1, .approved, none, none, none, ⟨false, none, none, none, none⟩, 0, some 5⟩],
          2, []⟩ 1 "rejected" 9).2.submissions =
      [⟨1, .rejected, none, none, none, ⟨false, none, none, none, none⟩, 0, some 9⟩] ∧
    (reviewPost
        ⟨[⟨1, .approved, none, none, none, ⟨false, none, none, none, none⟩, 0, some 5⟩],
          2, []⟩ 1 "rejected" 9).2.submissions ≠
      [⟨1, .approved, none, none, none, ⟨false, none, none, none, none⟩, 0, some 5⟩] := by
  constructor
  · rfl
  · decide

/-- C1 (amended): a moderation decision on any submission performs one update
that sets the requested status and the review timestamp together (and leaves
every other row and the staging area untouched), so `pending` transitions to
`approved` or `rejected`; but the endpoint does not guard against re-review —
a later approve/reject request on an already-decided submission overwrites
status and review timestamp again. -/
theorem review_update_spec (st : SiteState) (id : Nat) (target : String) (now : Nat)
    (hid : id ≠ 0) (ht : target = "approved" ∨ target = "rejected") :
    (reviewPost st id target now).1.httpStatus = 200 ∧
    (reviewPost st id target now).2.submissions =
      st.submissions.map (fun r =>
        if r.id = id then { r with status := statusOfString target, reviewedAt := some now }
        else r) ∧
    (reviewPost st id target now).2.staging = st.staging ∧
    (reviewPost st id target now).2.nextId = st.nextId := by
  have hmem : target ∈ (["approved", "rejected", "deleted"] : List String) := by
    rcases ht with rfl | rfl <;> decide
  have htd : target ≠ "deleted" := by
    rcases ht with rfl | rfl <;> decide
  refine ⟨?_, ?_, ?_, ?_⟩ <;> simp [reviewPost, hid, hmem, htd]

/-- Witness for C1 (amended): approving a pending row sets status and
timestamp together. -/
theorem review_update_spec_witness :
    (3 : Nat) ≠ 0 ∧
    (reviewPost ⟨[⟨3, .pending, none, none, none, ⟨false, none, none, none, none⟩, 0, none⟩],
        4, []⟩ 3 "approved" 11).2.submissions =
      [⟨3, .approved, none, none, none, ⟨false, none, none, none, none⟩, 0, some 11⟩] := by
  refine ⟨by decide, ?_⟩
  rw [(review_update_spec
    ⟨[⟨3, .pending, none, none, none, ⟨false, none, none, none, none⟩, 0, none⟩], 4, []⟩
    3 "approved" 11 (by decide) (Or.inl rfl)).2.1]
  rfl

/-- C2: a delete review request for any truthy id answers 200 and leaves
neither a submissions row nor a staging directory for that id — absence of
the staging directory beforehand is not required (removal is tolerant), and
repeating the same delete is a no-op that also answers 200. -/
theorem review_delete_spec (st : SiteState) (id : Nat) (now now' : Nat) (hid : id ≠ 0) :
    (reviewPost st id "deleted" now).1.httpStatus = 200 ∧
    (∀ r ∈ (reviewPost st id "deleted" now).2.submissions, r.id ≠ id) ∧
    (∀ p ∈ (reviewPost st id "deleted" now).2.staging, p.1 ≠ id) ∧
    reviewPost (reviewPost st id "deleted" now).2 id "deleted" now' =
      ({ httpStatus := 200, err := none }, (reviewPost st id "deleted" now).2) := by
  have hguard : ¬ (id = 0 ∨ "deleted" ∉ (["approved", "rejected", "deleted"] : List String)) := by
    simp [hid]
  have hred : ∀ (s : SiteState) (n : Nat), reviewPost s id "deleted" n =
      ({ httpStatus := 200, err := none },
       { s with staging := s.staging.filter (fun p => p.1 != id),
                submissions := s.submissions.filter (fun r => r.id != id) }) := by
    intro s n
    unfold reviewPost
    rw [if_neg hguard, if_pos rfl]
  have hsub : ∀ r ∈ (reviewPost st id "deleted" now).2.submissions, r.id ≠ id := by
    intro r hr
    rw [hred] at hr
    have := (List.mem_filter.mp hr).2
    simpa using this
  have hstag : ∀ p ∈ (reviewPost st id "deleted" now).2.staging, p.1 ≠ id := by
    intro p hp
    rw [hred] at hp
    have := (List.mem_filter.mp hp).2
    simpa using this
  refine ⟨by rw [hred], hsub, hstag, ?_⟩
  have hfil : ∀ {α : Type} (q : α → Bool) (l : List α),
      (l.filter q).filter q = l.filter q :=
    fun q l => List.filter_eq_self.mpr (fun x hx => (List.mem_filter.mp hx).2)
  rw [hred, hred]
  simp only [hfil]

/-- Witness for C2: deleting id 1 on a store holding a row and a staged
directory for id 1 empties both; the repeated call is a 200 no-op. -/
theorem review_delete_spec_witness :
    (1 : Nat) ≠ 0 ∧
    (reviewPost ⟨[⟨1, .pending, none, none, none, ⟨false, none, none, none, none⟩, 0, none⟩],
        2, [(1, [("position.jpg", ⟨3, [1]⟩)])]⟩ 1 "deleted" 4).2 = ⟨[], 2, []⟩ ∧
    reviewPost (⟨[], 2, []⟩ : SiteState) 1 "deleted" 5 =
      ({ httpStatus := 200, err := none }, (⟨[], 2, []⟩ : SiteState)) := by
  have h := review_delete_spec
    ⟨[⟨1, .pending, none, none, none, ⟨false, none, none, none, none⟩, 0, none⟩],
      2, [(1, [("position.jpg", ⟨3, [1]⟩)])]⟩ 1 4 5 (by decide)
  exact ⟨by decide, rfl, h.2.2.2⟩

/-- C3 counterexample: id 1 names no existing submission, the target status
is supported, yet the endpoint answers 200 rather than failing with a client
error. -/
theorem review_nonexistent_counterexample :
    (∀ r ∈ (⟨[], 5, []⟩ : SiteState).submissions, r.id ≠ 1) ∧
    (reviewPost ⟨[], 5, []⟩ 1 "approved" 0).1.httpStatus = 200 := by
  constructor
  · intro r hr
    cases hr
  · rfl

/-- C3 (amended): a falsy id or an unsupported target status fails with 400
and performs no mutation at all; but an unrecognized (nonexistent) truthy
identifier is not rejected — an approve/reject for it answers 200, updating
zero rows and touching nothing. -/
theorem review_invalid_spec :
    (∀ st target now, reviewPost st 0 target now =
      ({ httpStatus := 400, err := some "Invalid data" }, st)) ∧
    (∀ st id target now, target ∉ (["approved", "rejected", "deleted"] : List String) →
      reviewPost st id target now = ({ httpStatus := 400, err := some "Invalid data" }, st)) ∧
    (∀ st id target now, id ≠ 0 → (target = "approved" ∨ target = "rejected") →
      (∀ r ∈ st.submissions, r.id ≠ id) →
      (reviewPost st id target now).1.httpStatus = 200 ∧
      (reviewPost st id target now).2 = st) := by
  refine ⟨fun st target now => by simp [reviewPost], ?_, ?_⟩
  · intro st id target now hne
    simp [reviewPost, hne]
  · intro st id target now hid ht hnone
    have hmem : target ∈ (["approved", "rejected", "deleted"] : List String) := by
      rcases ht with rfl | rfl <;> decide
    have htd : target ≠ "deleted" := by
      rcases ht with rfl | rfl <;> decide
    refine ⟨by simp [reviewPost, hid, hmem, htd], ?_⟩
    have hmap : st.submissions.map (fun r =>
        if r.id = id then { r with status := statusOfString target, reviewedAt := some now }
        else r) = st.submissions := by
      have : ∀ r ∈ st.submissions, (if r.id = id
          then { r with status := statusOfString target, reviewedAt := some now }
          else r) = r := by
        intro r hr
        rw [if_neg (hnone r hr)]
      rw [List.map_congr_left this]
      exact List.map_id' st.submissions
    simp [reviewPost, hid, hmem, htd, hmap]

/-- Witness for C3 (amended): an unsupported status string fails with 400 and
no state change; approving the nonexistent id 1 on an empty store answers
200 and changes nothing. -/
theorem review_invalid_spec_witness :
    reviewPost (⟨[], 5, []⟩ : SiteState) 1 "bogus" 0 =
      ({ httpStatus := 400, err := some "Invalid data" }, (⟨[], 5, []⟩ : SiteState)) ∧
    (reviewPost (⟨[], 5, []⟩ : SiteState) 1 "approved" 0).2 = (⟨[], 5, []⟩ : SiteState) := by
  constructor
  · exact review_invalid_spec.2.1 ⟨[], 5, []⟩ 1 "bogus" 0 (by decide)
  · exact (review_invalid_spec.2.2 ⟨[], 5, []⟩ 1 "approved" 0 (by decide) (Or.inl rfl)
      (fun r hr => by cases hr)).2

/-! ### Delete-path safety (C9) -/

theorem foldl_normStep_plain (l : List String) (acc : List String)
    (h : ∀ seg ∈ l, seg ≠ "" ∧ seg ≠ "." ∧ seg ≠ "..") :
    List.foldl normStep acc l = acc ++ l := by
  induction l generalizing acc with
  | nil => simp
  | cons s t ih =>
    have hs := h s (by simp)
    have hstep : normStep acc s = acc ++ [s] := by
      unfold normStep
      rw [if_neg (not_or.mpr ⟨hs.1, hs.2.1⟩), if_neg hs.2.2]
    rw [List.foldl_cons, hstep, ih _ (fun seg hseg => h seg (by simp [hseg]))]
    simp

/-- C9 counterexample: the guard accepts the string id `"../../etc"` (it is
truthy), and the path handed to the recursive removal normalizes to
`/etc` — outside the staging root `/srv/staging`. -/
theorem reviewRmTarget_escape_counterexample :
    reviewRmTarget ["srv", "app"] (.jstr "../../etc") = some ["etc"] ∧
    stagingRoot ["srv", "app"] = ["srv", "staging"] ∧
    ¬ stagingRoot ["srv", "app"] <+: ["etc"] := by
  refine ⟨rfl, rfl, by decide⟩

/-- C9 (amended): for every accepted id whose string form contains no empty,
`.`, or `..` segment — numeric submission identifiers in particular — the
only path removed is exactly the staging-root directory keyed by that id,
inside the staging root; but ids containing `..` segments are accepted and
escape the root (see the counterexample). -/
theorem reviewRmTarget_safe (cwd : List String) (id : JVal)
    (htr : jtruthy id = true)
    (hsegs : ∀ seg ∈ splitSlash (jsStringOf id), seg ≠ "" ∧ seg ≠ "." ∧ seg ≠ "..") :
    reviewRmTarget cwd id = some (stagingRoot cwd ++ splitSlash (jsStringOf id)) ∧
    stagingRoot cwd <+: stagingRoot cwd ++ splitSlash (jsStringOf id) := by
  refine ⟨?_, ⟨splitSlash (jsStringOf id), rfl⟩⟩
  unfold reviewRmTarget
  rw [if_pos htr]
  congr 1
  show normSegs ((cwd ++ [".."] ++ ["staging"]) ++ splitSlash (jsStringOf id)) = _
  unfold normSegs
  rw [List.foldl_append, foldl_normStep_plain _ _ hsegs]
  congr 1
  show List.foldl normStep [] (cwd ++ [".."] ++ ["staging"]) = stagingRoot cwd
  unfold stagingRoot normSegs
  congr 1
  simp

/-- Witness for C9 (amended): numeric id 7 removes exactly
`<staging root>/7`. -/
theorem reviewRmTarget_safe_witness :
    jtruthy (.jnum 7) = true ∧
    reviewRmTarget ["srv", "app"] (.jnum 7) = some ["srv", "staging", "7"] ∧
    stagingRoot ["srv", "app"] <+: ["srv", "staging", "7"] := by
  have h := reviewRmTarget_safe ["srv", "app"] (.jnum 7) (by decide) (by decide)
  exact ⟨by decide, h.1, h.2⟩

/-! ### Seeded shuffle (C10) -/

/-- C10: the claim that the code's ordering is bit-identical to the
exact-integer recurrence fails on the code's JavaScript double arithmetic.
With the 3-element array and seed 3 (the item count, the seed the program
itself uses), the second seed update computes a product of about `1.28e18`,
beyond `2^53`, so rounding changes the low bits: the code produces
`[2, 0, 1]` while the exact-integer reference produces `[0, 2, 1]`. -/
theorem seededShuffle_deviates :
    seededShuffle [0, 1, 2] 3 = [2, 0, 1] ∧
    refShuffle [0, 1, 2] 3 = [0, 2, 1] ∧
    seededShuffle [0, 1, 2] 3 ≠ refShuffle [0, 1, 2] 3 := by
  refine ⟨rfl, rfl, by decide⟩

end CsNades
